import Mathlib

/-!
Verification of the indicator engine of the `graph` repository
(`src/main.rs`).  The computational core is the SQL executed by the
`get_indicators` and `get_fib` HTTP handlers; we give it a shallow
embedding in Lean.

Conventions of the embedding:
* DuckDB `DOUBLE` values are embedded as exact rationals `ℚ`; the SQL
  formulas are translated literally, with the numeric literals of the
  source kept exact (`0.133333333333` becomes `133333333333/10^12`).
* Timestamps are embedded as `Nat`.  The source stores them as
  `TIMESTAMP` and compares them with `ORDER BY` / `BETWEEN`; only their
  linear order matters, which `Nat` provides.
* An ordered series is a `List (Nat × ℚ)` of (timestamp, close) pairs,
  assumed strictly increasing in the first component where a claim needs
  it (the `Ordered Series` contract).  Under that assumption the SQL
  `ORDER BY timestamp` is the identity and `row_number()` enumerates the
  list positionally, so window functions and the recursive CTE become
  positional list computations.
* SQL `NULL` in an output column becomes `Option`.
-/

namespace Graph

/-- EMA multiplier of the current close, literal `0.133333333333` from
`src/main.rs` line 170 (`o.close * 0.133333333333`). -/
def alphaC : ℚ := 133333333333 / 1000000000000

/-- EMA multiplier of the previous EMA, literal `0.866666666667` from
`src/main.rs` line 170 (`e.ema * 0.866666666667`). -/
def betaC : ℚ := 866666666667 / 1000000000000

/-- The recursive part of the `ema` CTE (`src/main.rs` lines 168-172):
given the EMA `e` of the previous row, each following row's EMA is
`close * 0.133333333333 + previous_ema * 0.866666666667`. -/
def emaFrom (e : ℚ) : List ℚ → List ℚ
  | [] => []
  | c :: cs => (c * alphaC + e * betaC) :: emaFrom (c * alphaC + e * betaC) cs

/-- The full `ema` CTE (`src/main.rs` lines 164-173): the base case
(`WHERE rn = 1`) makes the first row's EMA its close; the recursive arm
is `emaFrom`.  Yields one EMA value per input close, in order. -/
def emaList : List ℚ → List ℚ
  | [] => []
  | c :: cs => c :: emaFrom c cs

/-- EMA of the row at position `i` (0-indexed). -/
def emaAt (closes : List ℚ) (i : Nat) : ℚ :=
  (emaList closes).getD i 0

/-- First row index of the SQL window `ROWS BETWEEN 13 PRECEDING AND
CURRENT ROW` at 0-indexed row `i`: truncated subtraction gives
`max 0 (i-13)` exactly as the window clips at the partition start. -/
def winStart (i : Nat) : Nat := i - 13

/-- Number of rows of the window `ROWS BETWEEN 13 PRECEDING AND CURRENT
ROW` at row `i`; equals `min (i+1) 14`. -/
def winLen (i : Nat) : Nat := i + 1 - (i - 13)

/-- The index list of the window at row `i`. -/
def winIdx (i : Nat) : List Nat := List.range' (winStart i) (winLen i)

/-- `sma_14` (`src/main.rs` line 199):
`avg(close) OVER (ORDER BY timestamp ROWS BETWEEN 13 PRECEDING AND
CURRENT ROW)` — the mean of the closes in the trailing window. -/
def smaAt (closes : List ℚ) (i : Nat) : ℚ :=
  ((winIdx i).map (fun j => closes.getD j 0)).sum / (winLen i)

/-- The `gain` column of the `gains` CTE (`src/main.rs` line 185):
`CASE WHEN delta > 0 THEN delta ELSE 0 END`, where
`delta = close - lag(close)` (line 178).  At row 0 `lag` is `NULL`, the
comparison is `NULL`, and the `CASE` falls through to `0`. -/
def gainAt (closes : List ℚ) (j : Nat) : ℚ :=
  if j = 0 then 0
  else if 0 < closes.getD j 0 - closes.getD (j - 1) 0 then
    closes.getD j 0 - closes.getD (j - 1) 0
  else 0

/-- The `loss` column of the `gains` CTE (`src/main.rs` line 186):
`CASE WHEN delta < 0 THEN -delta ELSE 0 END`; `0` at row 0 (NULL delta). -/
def lossAt (closes : List ℚ) (j : Nat) : ℚ :=
  if j = 0 then 0
  else if closes.getD j 0 - closes.getD (j - 1) 0 < 0 then
    -(closes.getD j 0 - closes.getD (j - 1) 0)
  else 0

/-- `avg_gain` of the `rsi_calc` CTE (`src/main.rs` line 193): mean of
`gain` over the trailing 14-row window. -/
def avgGainAt (closes : List ℚ) (i : Nat) : ℚ :=
  ((winIdx i).map (gainAt closes)).sum / (winLen i)

/-- `avg_loss` of the `rsi_calc` CTE (`src/main.rs` line 194): mean of
`loss` over the trailing 14-row window. -/
def avgLossAt (closes : List ℚ) (i : Nat) : ℚ :=
  ((winIdx i).map (lossAt closes)).sum / (winLen i)

/-- `rsi_14` (`src/main.rs` lines 201-204):
`CASE WHEN avg_loss = 0 THEN NULL ELSE 100 - (100 / (1 + avg_gain /
avg_loss))) END`. -/
def rsiAt (closes : List ℚ) (i : Nat) : Option ℚ :=
  if avgLossAt closes i = 0 then none
  else some (100 - 100 / (1 + avgGainAt closes i / avgLossAt closes i))

/-- The `IndicatorPoint` struct of `src/main.rs` lines 31-37, with the
timestamp embedded as `Nat`. -/
structure IndicatorPoint where
  timestamp : Nat
  sma_14 : Option ℚ
  ema_14 : Option ℚ
  rsi_14 : Option ℚ
  deriving DecidableEq, Repr

/-- Default row used with `List.getD`. -/
def pt0 : IndicatorPoint := ⟨0, none, none, none⟩

/-- The output row of the final `SELECT` of `get_indicators`
(`src/main.rs` lines 197-208) for the candle at position `i`.  With
strictly increasing timestamps the two `LEFT JOIN ... ON timestamp`
always match exactly the row of the same position, so `sma_14` and
`ema_14` are never `NULL` and `rsi_14` is the `CASE` expression. -/
def pointAt (s : List (Nat × ℚ)) (i : Nat) : IndicatorPoint :=
  { timestamp := (s.getD i (0, 0)).1
  , sma_14 := some (smaAt (s.map Prod.snd) i)
  , ema_14 := some (emaAt (s.map Prod.snd) i)
  , rsi_14 := rsiAt (s.map Prod.snd) i }

/-- The row list produced by the `get_indicators` query: one output row
per candle, in timestamp (= positional) order. -/
def computePoints (s : List (Nat × ℚ)) : List IndicatorPoint :=
  (List.range s.length).map (pointAt s)

/-- `StatusCode::INTERNAL_SERVER_ERROR`, the only status the
`internal_error` helper (`src/main.rs` lines 257-259) ever produces. -/
def internalErrorStatus : Nat := 500

/-- `StatusCode::BAD_REQUEST`; named for stating what the handlers do
NOT return — no line of `src/main.rs` constructs it. -/
def badRequestStatus : Nat := 400

/-- The `get_indicators` handler (`src/main.rs` lines 152-222) as seen
from a materialized in-memory series: the query itself cannot fail, so
the handler returns `Ok` with one `IndicatorPoint` per candle.  Errors
(the `Nat` is the HTTP status) arise only from store access, which the
embedding of an already-materialized series never produces. -/
def getIndicators (s : List (Nat × ℚ)) : Except Nat (List IndicatorPoint) :=
  Except.ok (computePoints s)

end Graph

namespace Graph

/- Sanity lemmas about the window shape, shared by several claims. -/

/-- The window length is `min (i+1) 14`. -/
theorem winLen_eq_min (i : Nat) : winLen i = min (i + 1) 14 := by
  unfold winLen; omega

/-- Membership in the trailing window is exactly
`max 0 (i-13) ≤ j ≤ i` (truncated subtraction makes `i-13` the max). -/
theorem mem_winIdx (i j : Nat) : j ∈ winIdx i ↔ (i - 13 ≤ j ∧ j ≤ i) := by
  unfold winIdx winStart winLen
  rw [List.mem_range'_1]
  omega

/-- Each entry of the recursive EMA pass is `α·close + β·previous`,
where the previous value of entry 0 is the seed `e`. -/
theorem emaFrom_getD (cs : List ℚ) : ∀ (e : ℚ) (i : Nat), i < cs.length →
    (emaFrom e cs).getD i 0 =
      alphaC * cs.getD i 0 + betaC * ((e :: emaFrom e cs).getD i 0) := by
  induction cs with
  | nil => intro e i h; simp at h
  | cons c cs ih =>
    intro e i h
    match i with
    | 0 => simp [emaFrom]; ring
    | Nat.succ k =>
      have hk : k < cs.length := by simpa using Nat.lt_of_succ_lt_succ h
      simpa [emaFrom] using ih (c * alphaC + e * betaC) k hk

/-- The recursive EMA pass commutes with `List.take`. -/
theorem emaFrom_take (cs : List ℚ) : ∀ (e : ℚ) (k : Nat),
    emaFrom e (cs.take k) = (emaFrom e cs).take k := by
  induction cs with
  | nil => intro e k; simp [emaFrom]
  | cons c cs ih =>
    intro e k
    match k with
    | 0 => rfl
    | Nat.succ k => simp [emaFrom, ih]

end Graph

namespace Graph

/-- C1 (counterexample).  The claim asserts
`EMA[i] = α·close[i] + (1−α)·EMA[i−1]` with `α` exactly `2/15`.  On the
two-point series of closes `[0, 15]` the engine yields
`EMA[1] = 15 · 0.133333333333 = 1.999999999995`, while `α = 2/15` would
give exactly `2`. -/
theorem ema_alpha_claim_false :
    emaAt [0, 15] 1 ≠
      2 / 15 * (List.getD [(0 : ℚ), 15] 1 0) + (1 - 2 / 15) * emaAt [0, 15] 0 := by
  simp [emaAt, emaList, emaFrom, alphaC, betaC]
  norm_num

/-- C1 (amended).  `EMA[0] = close[0]`, and for `i ≥ 1` the engine
computes `EMA[i] = α·close[i] + (1−α)·EMA[i−1]` where the smoothing
factor `α` is the source literal `0.133333333333` (`alphaC`) and the
complementary literal `0.866666666667` equals `1 − α` exactly; `α` is
close to, but not exactly, `2/15`. -/
theorem ema_recurrence :
    betaC = 1 - alphaC ∧
    alphaC ≠ 2 / 15 ∧
    (∀ (c : ℚ) (cs : List ℚ), emaAt (c :: cs) 0 = c) ∧
    (∀ (closes : List ℚ) (i : Nat), i + 1 < closes.length →
      emaAt closes (i + 1) =
        alphaC * closes.getD (i + 1) 0 + (1 - alphaC) * emaAt closes i) := by
  refine ⟨by norm_num [alphaC, betaC], by norm_num [alphaC], ?_, ?_⟩
  · intro c cs; simp [emaAt, emaList]
  · intro closes i h
    match closes with
    | [] => simp at h
    | c :: cs =>
      have hi : i < cs.length := by simpa using Nat.lt_of_succ_lt_succ h
      have hb : (1 : ℚ) - alphaC = betaC := by norm_num [alphaC, betaC]
      have := emaFrom_getD cs c i hi
      simpa [emaAt, emaList, hb] using this

/-- C1 (witness for the amended recurrence at the series `[0, 15]`,
index 1). -/
theorem ema_recurrence_witness :
    0 + 1 < ([(0 : ℚ), 15] : List ℚ).length ∧
      emaAt [0, 15] (0 + 1) =
        alphaC * (List.getD [(0 : ℚ), 15] (0 + 1) 0) + (1 - alphaC) * emaAt [0, 15] 0 :=
  ⟨by simp, ema_recurrence.2.2.2 [0, 15] 0 (by simp)⟩

/-- C9.  The EMA pass is prefix-independent: running it on the first
`k` closes yields exactly the first `k` EMA values of the full run. -/
theorem ema_prefix_independent (closes : List ℚ) (k : Nat) :
    emaList (closes.take k) = (emaList closes).take k := by
  match closes with
  | [] => simp [emaList]
  | c :: cs =>
    match k with
    | 0 => rfl
    | Nat.succ k => simp [emaList, emaFrom_take]

end Graph

namespace Graph

/-- For a window function vanishing at index 0, the trailing-window
sum starting at `max 0 (i-13)` equals the sum over the indices
`max 1 (i-13) .. i` with defined deltas: the only index the two ranges
can differ by is 0, which contributes nothing. -/
theorem sum_win_shift (g : Nat → ℚ) (hg : g 0 = 0) (i : Nat) (h : 1 ≤ i) :
    ((winIdx i).map g).sum =
      ((List.range' (max (i - 13) 1) (i - max (i - 13) 1 + 1)).map g).sum := by
  rcases le_or_lt i 13 with hle | hgt
  · have h1 : winStart i = 0 := by unfold winStart; omega
    have h2 : winLen i = i + 1 := by unfold winLen; omega
    have h3 : max (i - 13) 1 = 1 := by omega
    have h4 : i - 1 + 1 = i := by omega
    rw [winIdx, h1, h2, h3, h4, List.range'_succ]
    simp [hg]
  · have h1 : winStart i = i - 13 := rfl
    have h2 : winLen i = 14 := by unfold winLen; omega
    have h3 : max (i - 13) 1 = i - 13 := by omega
    have h4 : i - (i - 13) + 1 = 14 := by omega
    rw [winIdx, h1, h2, h3, h4]

/-- For `j ≥ 1`, the `gain` column is `max(delta, 0)`. -/
theorem gainAt_eq_max (closes : List ℚ) (j : Nat) (h : 1 ≤ j) :
    gainAt closes j = max (closes.getD j 0 - closes.getD (j - 1) 0) 0 := by
  have hj : j ≠ 0 := by omega
  rw [gainAt, if_neg hj]
  rcases le_or_lt (closes.getD j 0 - closes.getD (j - 1) 0) 0 with hle | hlt
  · rw [if_neg (not_lt.mpr hle)]
    exact (max_eq_right hle).symm
  · rw [if_pos hlt]
    exact (max_eq_left hlt.le).symm

/-- For `j ≥ 1`, the `loss` column is `max(-delta, 0)`, i.e.
`max(close[j-1] - close[j], 0)`. -/
theorem lossAt_eq_max (closes : List ℚ) (j : Nat) (h : 1 ≤ j) :
    lossAt closes j = max (closes.getD (j - 1) 0 - closes.getD j 0) 0 := by
  have hj : j ≠ 0 := by omega
  have hns : closes.getD (j - 1) 0 - closes.getD j 0 =
      -(closes.getD j 0 - closes.getD (j - 1) 0) := by ring
  rw [lossAt, if_neg hj, hns]
  rcases lt_or_le (closes.getD j 0 - closes.getD (j - 1) 0) 0 with hlt | hle
  · rw [if_pos hlt]
    exact (max_eq_left (by linarith)).symm
  · rw [if_neg (not_lt.mpr hle)]
    exact (max_eq_right (by linarith)).symm

/-- Modelled from the spec: Wilder's canonical exponential smoothing of
the average gain, which the spec insists the engine does NOT use (the
code in `src/main.rs` lines 189-195 has no such recurrence; this
definition exists only to be compared against `avgGainAt`).  Wilder
seeds the average at index 14 with the plain mean of the first 14 gains
and thereafter applies `avg[i] = (avg[i-1]*13 + gain[i]) / 14`. -/
def wilderAvgGain (closes : List ℚ) : Nat → ℚ
  | 0 => 0
  | n + 1 =>
    if n + 1 < 14 then 0
    else if n + 1 = 14 then ((List.range' 1 14).map (gainAt closes)).sum / 14
    else (wilderAvgGain closes n * 13 + gainAt closes (n + 1)) / 14

/-- A 16-close series on which the rolling mean and Wilder's smoothing
disagree: one initial jump of 14 followed by a constant tail. -/
def wilderDemo : List ℚ := [0, 14, 14, 14, 14, 14, 14, 14, 14, 14, 14, 14, 14, 14, 14, 14]

/-- C2.  `avg_gain` and `avg_loss` are the simple unweighted means of
`max(delta, 0)` / `max(-delta, 0)` over the trailing window of up to 14
rows ending at `i` (the window of rows `max 0 (i-13) .. i`, whose row 0
contributes a zero gain/loss since it has no delta; the divisor is the
full window size `min (i+1) 14`), and not Wilder's exponential
smoothing: on `wilderDemo` the two disagree at index 15. -/
theorem rsi_avg_rolling_mean :
    (∀ (closes : List ℚ) (i : Nat), 1 ≤ i →
      avgGainAt closes i =
        ((List.range' (max (i - 13) 1) (i - max (i - 13) 1 + 1)).map
          (fun j => max (closes.getD j 0 - closes.getD (j - 1) 0) 0)).sum
          / (min (i + 1) 14)) ∧
    (∀ (closes : List ℚ) (i : Nat), 1 ≤ i →
      avgLossAt closes i =
        ((List.range' (max (i - 13) 1) (i - max (i - 13) 1 + 1)).map
          (fun j => max (closes.getD (j - 1) 0 - closes.getD j 0) 0)).sum
          / (min (i + 1) 14)) ∧
    avgGainAt wilderDemo 15 ≠ wilderAvgGain wilderDemo 15 := by
  refine ⟨?_, ?_, ?_⟩
  · intro closes i h
    have hmap : List.map (gainAt closes)
        (List.range' (max (i - 13) 1) (i - max (i - 13) 1 + 1)) =
        List.map (fun j => max (closes.getD j 0 - closes.getD (j - 1) 0) 0)
          (List.range' (max (i - 13) 1) (i - max (i - 13) 1 + 1)) := by
      refine List.map_congr_left ?_
      intro j hj
      rw [List.mem_range'_1] at hj
      exact gainAt_eq_max closes j (le_trans (le_max_right _ 1) hj.1)
    rw [avgGainAt, winLen_eq_min,
      sum_win_shift (gainAt closes) (by simp [gainAt]) i h, hmap]
  · intro closes i h
    have hmap : List.map (lossAt closes)
        (List.range' (max (i - 13) 1) (i - max (i - 13) 1 + 1)) =
        List.map (fun j => max (closes.getD (j - 1) 0 - closes.getD j 0) 0)
          (List.range' (max (i - 13) 1) (i - max (i - 13) 1 + 1)) := by
      refine List.map_congr_left ?_
      intro j hj
      rw [List.mem_range'_1] at hj
      exact lossAt_eq_max closes j (le_trans (le_max_right _ 1) hj.1)
    rw [avgLossAt, winLen_eq_min,
      sum_win_shift (lossAt closes) (by simp [lossAt]) i h, hmap]
  · have hwin : winIdx 15 = [2, 3, 4, 5, 6, 7, 8, 9, 10, 11, 12, 13, 14, 15] := rfl
    have hgain : ∀ j, 2 ≤ j → j ≤ 15 → gainAt wilderDemo j = 0 := by
      intro j h1 h2
      interval_cases j <;> norm_num [gainAt, wilderDemo]
    have hlhs : avgGainAt wilderDemo 15 = 0 := by
      rw [avgGainAt, hwin]
      norm_num [hgain]
    have hseed : ((List.range' 1 14).map (gainAt wilderDemo)).sum = 14 := by
      norm_num [List.range'_succ, gainAt, wilderDemo]
    have hrhs : wilderAvgGain wilderDemo 15 = 13 / 14 := by
      show (wilderAvgGain wilderDemo 14 * 13 + gainAt wilderDemo 15) / 14 = 13 / 14
      rw [show wilderAvgGain wilderDemo 14 =
        ((List.range' 1 14).map (gainAt wilderDemo)).sum / 14 from rfl, hseed,
        hgain 15 (by omega) (by omega)]
      norm_num
    rw [hlhs, hrhs]
    norm_num

/-- C2 (witness at `wilderDemo`, index 1). -/
theorem rsi_avg_rolling_mean_witness :
    avgGainAt wilderDemo 1 =
      ((List.range' (max (1 - 13) 1) (1 - max (1 - 13) 1 + 1)).map
        (fun j => max (wilderDemo.getD j 0 - wilderDemo.getD (j - 1) 0) 0)).sum
        / ((min (1 + 1) 14 : Nat) : ℚ) :=
  rsi_avg_rolling_mean.1 wilderDemo 1 (by omega)

end Graph

namespace Graph

/-- Row `i` of the query output, extracted with `getD`. -/
theorem computePoints_getD (s : List (Nat × ℚ)) (i : Nat) (h : i < s.length) :
    (computePoints s).getD i pt0 = pointAt s i := by
  rw [computePoints, List.getD_eq_getElem?_getD, List.getElem?_map,
    List.getElem?_range h]
  rfl

/-- The 15-point series of consecutive closes `10..24` of the spec's
first concrete scenario. -/
def demo15 : List ℚ := [10, 11, 12, 13, 14, 15, 16, 17, 18, 19, 20, 21, 22, 23, 24]

/-- C4.  The SMA window at row `i` is exactly the index interval
`max 0 (i-13) .. i`; the `sma_14` field is always present and holds the
window mean; `SMA[0] = close[0]` on every non-empty series; and on the
series `10..24` the SMA at index 14 is `17.5 = 35/2`. -/
theorem sma_shrinking_window :
    (∀ i j : Nat, j ∈ winIdx i ↔ (i - 13 ≤ j ∧ j ≤ i)) ∧
    (∀ (s : List (Nat × ℚ)) (i : Nat), i < s.length →
      ((computePoints s).getD i pt0).sma_14 = some (smaAt (s.map Prod.snd) i)) ∧
    (∀ (c : ℚ) (cs : List ℚ), smaAt (c :: cs) 0 = c) ∧
    smaAt demo15 14 = 35 / 2 := by
  refine ⟨mem_winIdx, ?_, ?_, ?_⟩
  · intro s i h
    rw [computePoints_getD s i h]
    rfl
  · intro c cs
    have hw : winIdx 0 = [0] := rfl
    rw [smaAt, hw]
    simp [winLen]
  · have hw : winIdx 14 = [1, 2, 3, 4, 5, 6, 7, 8, 9, 10, 11, 12, 13, 14] := rfl
    rw [smaAt, hw]
    norm_num [demo15, winLen]

/-- C4 (witness: the `sma_14` field of row 0 of the single-candle
series `[(3, 100)]` is present and equals the window mean). -/
theorem sma_shrinking_window_witness :
    0 < ([((3 : Nat), (100 : ℚ))] : List (Nat × ℚ)).length ∧
      ((computePoints [((3 : Nat), (100 : ℚ))]).getD 0 pt0).sma_14 =
        some (smaAt (([((3 : Nat), (100 : ℚ))] : List (Nat × ℚ)).map Prod.snd) 0) :=
  ⟨by simp, sma_shrinking_window.2.1 [((3 : Nat), (100 : ℚ))] 0 (by simp)⟩

/-- C3.  `rsi_14` is `NULL` whenever the window-average loss is zero
(never the textbook 100), `RSI[0]` is always `NULL` (its window average
loss is zero because row 0 has no delta), otherwise
`RSI = 100 - 100 / (1 + avg_gain / avg_loss)`; the query's `rsi_14`
column is exactly this value. -/
theorem rsi_null_policy :
    (∀ (closes : List ℚ) (i : Nat), avgLossAt closes i = 0 → rsiAt closes i = none) ∧
    (∀ closes : List ℚ, rsiAt closes 0 = none) ∧
    (∀ (closes : List ℚ) (i : Nat), avgLossAt closes i ≠ 0 →
      rsiAt closes i =
        some (100 - 100 / (1 + avgGainAt closes i / avgLossAt closes i))) ∧
    (∀ (s : List (Nat × ℚ)) (i : Nat), i < s.length →
      ((computePoints s).getD i pt0).rsi_14 = rsiAt (s.map Prod.snd) i) := by
  refine ⟨?_, ?_, ?_, ?_⟩
  · intro closes i h
    rw [rsiAt, if_pos h]
  · intro closes
    have h0 : avgLossAt closes 0 = 0 := by
      have hw : winIdx 0 = [0] := rfl
      rw [avgLossAt, hw]
      simp [lossAt]
    rw [rsiAt, if_pos h0]
  · intro closes i h
    rw [rsiAt, if_neg h]
  · intro s i h
    rw [computePoints_getD s i h]
    rfl

/-- C3 (witness: the series `[10, 5, 7]` has a nonzero average loss at
index 2, where the RSI formula applies). -/
theorem rsi_null_policy_witness :
    avgLossAt [(10 : ℚ), 5, 7] 2 ≠ 0 ∧
      rsiAt [(10 : ℚ), 5, 7] 2 =
        some (100 - 100 /
          (1 + avgGainAt [(10 : ℚ), 5, 7] 2 / avgLossAt [(10 : ℚ), 5, 7] 2)) := by
  have hw : winIdx 2 = [0, 1, 2] := rfl
  have hne : avgLossAt [(10 : ℚ), 5, 7] 2 ≠ 0 := by
    rw [avgLossAt, hw]
    norm_num [lossAt, winLen]
  exact ⟨hne, rsi_null_policy.2.2.1 [(10 : ℚ), 5, 7] 2 hne⟩

/-- C8.  On an ordered series (strictly increasing timestamps) the
handler succeeds and emits exactly one `IndicatorPoint` per candle,
carrying the candle's own timestamp at the same position, and the empty
series yields `Ok []`. -/
theorem indicators_one_point_per_candle :
    getIndicators ([] : List (Nat × ℚ)) = Except.ok [] ∧
    (∀ s : List (Nat × ℚ),
      List.Pairwise (fun a b => a < b) (s.map Prod.fst) →
      getIndicators s = Except.ok (computePoints s) ∧
      (computePoints s).length = s.length ∧
      (∀ i : Nat, i < s.length →
        ((computePoints s).getD i pt0).timestamp = (s.getD i (0, 0)).1)) := by
  refine ⟨rfl, ?_⟩
  intro s hs
  refine ⟨rfl, by simp [computePoints], ?_⟩
  intro i h
  rw [computePoints_getD s i h]
  rfl

/-- C8 (witness at a concrete strictly increasing two-candle series). -/
theorem indicators_one_point_per_candle_witness :
    List.Pairwise (fun a b => a < b)
        (([(1, 10), (2, 20)] : List (Nat × ℚ)).map Prod.fst) ∧
      (computePoints ([(1, 10), (2, 20)] : List (Nat × ℚ))).length =
        ([(1, 10), (2, 20)] : List (Nat × ℚ)).length :=
  ⟨by simp, (indicators_one_point_per_candle.2 [(1, 10), (2, 20)] (by simp)).2.1⟩

end Graph

namespace Graph

/-- The `FibLevel` struct of `src/main.rs` lines 46-50. -/
structure FibLevel where
  ratio : ℚ
  value : ℚ
  deriving DecidableEq, Repr

/-- The `FibLevels` struct of `src/main.rs` lines 39-44. -/
structure FibLevels where
  low : ℚ
  high : ℚ
  levels : List FibLevel
  deriving DecidableEq, Repr

/-- The ratio array of `src/main.rs` line 246:
`[0.0, 0.236, 0.382, 0.5, 0.618, 0.786, 1.0]` (exact decimals). -/
def fibRatios : List ℚ := [0, 236 / 1000, 382 / 1000, 5 / 10, 618 / 1000, 786 / 1000, 1]

/-- The level construction of `src/main.rs` lines 246-252: each ratio
is mapped to `FibLevel { ratio, value: high - (high - low) * ratio }`. -/
def fibLevels (low high : ℚ) : List FibLevel :=
  fibRatios.map (fun r => { ratio := r, value := high - (high - low) * r })

/-- The `Candle` struct of `src/main.rs` lines 21-29 (`open` is renamed
`opn`: `open` is a Lean keyword; the timestamp is embedded as `Nat`). -/
structure Candle where
  ts : Nat
  opn : ℚ
  high : ℚ
  low : ℚ
  close : ℚ
  volume : ℚ
  deriving DecidableEq, Repr

/-- The bound match of `get_fib` (`src/main.rs` lines 229-244),
`match (&query.start, &query.end)`: only `(Some, Some)` restricts the
scan with `BETWEEN` (inclusive on both ends); every other combination —
including exactly one supplied bound — takes the `_` arm and scans the
whole table. -/
def fibSelect (store : List Candle) (start stop : Option Nat) : List Candle :=
  match start, stop with
  | some s, some e => store.filter (fun c => decide (s ≤ c.ts) && decide (c.ts ≤ e))
  | _, _ => store

/-- The aggregate-and-respond part of `get_fib`: `NULL` min/max on an
empty selection fails the row conversion (status 500); otherwise the
seven levels are built from the folded min low / max high. -/
def fibFromSel : List Candle → Except Nat FibLevels
  | [] => Except.error internalErrorStatus
  | c :: cs =>
    Except.ok
      { low := (cs.map Candle.low).foldl min c.low
      , high := (cs.map Candle.high).foldl max c.high
      , levels := fibLevels ((cs.map Candle.low).foldl min c.low)
          ((cs.map Candle.high).foldl max c.high) }

/-- The `get_fib` handler (`src/main.rs` lines 224-255) over a
materialized store: range selection followed by aggregation. -/
def getFib (store : List Candle) (start stop : Option Nat) :
    Except Nat FibLevels :=
  fibFromSel (fibSelect store start stop)

/-- C5.  The calculator emits exactly the seven ratios
`0, 0.236, 0.382, 0.5, 0.618, 0.786, 1`, each with value
`high - (high - low) * ratio`; the first value is `high`, the last is
`low`, and for `high > low` the values strictly decrease down the
list. -/
theorem fib_levels_spec :
    (∀ low high : ℚ, (fibLevels low high).length = 7) ∧
    (∀ low high : ℚ, (fibLevels low high).map FibLevel.ratio = fibRatios) ∧
    (∀ low high : ℚ, ∀ p ∈ fibLevels low high,
      p.value = high - (high - low) * p.ratio) ∧
    (∀ low high : ℚ, ((fibLevels low high).getD 0 ⟨0, 0⟩).value = high) ∧
    (∀ low high : ℚ, ((fibLevels low high).getD 6 ⟨0, 0⟩).value = low) ∧
    (∀ low high : ℚ, low < high →
      ((fibLevels low high).map FibLevel.value).Chain' (fun a b => b < a)) := by
  refine ⟨?_, ?_, ?_, ?_, ?_, ?_⟩
  · intro low high; rfl
  · intro low high; rfl
  · intro low high p hp
    simp only [fibLevels, fibRatios, List.map_cons, List.map_nil, List.mem_cons,
      List.not_mem_nil, or_false] at hp
    rcases hp with h | h | h | h | h | h | h <;> subst h <;> rfl
  · intro low high
    show high - (high - low) * 0 = high
    ring
  · intro low high
    show high - (high - low) * 1 = low
    ring
  · intro low high h
    have hd : 0 < high - low := sub_pos.mpr h
    simp only [fibLevels, fibRatios, List.map_cons, List.map_nil, List.chain'_cons,
      List.chain'_singleton, and_true]
    refine ⟨?_, ?_, ?_, ?_, ?_, ?_⟩ <;> nlinarith

/-- C5 (witness: the strict decrease at the spec's concrete scenario
`low = 50`, `high = 150`). -/
theorem fib_levels_spec_witness :
    (50 : ℚ) < 150 ∧
      ((fibLevels 50 150).map FibLevel.value).Chain' (fun a b => b < a) :=
  ⟨by norm_num, fib_levels_spec.2.2.2.2.2 50 150 (by norm_num)⟩

/-- A concrete stored candle (timestamp 0). -/
def demoCandle : Candle := ⟨0, 1, 3, 1, 2, 5⟩

/-- C6 (counterexample).  A request supplying only the `start` bound is
NOT rejected as a bad request: on a one-candle store it is answered
with a normal `FibLevels` response computed over the full store. -/
theorem partial_bound_not_rejected :
    getFib [demoCandle] (some 0) none ≠ Except.error badRequestStatus ∧
    getFib [demoCandle] (some 0) none =
      Except.ok { low := 1, high := 3, levels := fibLevels 1 3 } := by
  have hok : getFib [demoCandle] (some 0) none =
      Except.ok { low := 1, high := 3, levels := fibLevels 1 3 } := rfl
  exact ⟨by rw [hok]; simp, hok⟩

/-- C6 (amended).  A partial bound pair (exactly one of start/end
supplied) is silently coerced to the full-series selection — precisely
the behavior of the `_` match arm — and never answered with a
bad-request status (no path of `get_fib` produces one). -/
theorem partial_bound_coerced_full (store : List Candle) (t : Nat) :
    getFib store (some t) none = getFib store none none ∧
    getFib store none (some t) = getFib store none none :=
  ⟨rfl, rfl⟩

/-- C10.  When the store is empty — or a supplied `[start, end]` range
selects no candles — the `min`/`max` aggregates are `NULL`, the row
conversion fails, and `get_fib` answers with the internal-error status
(500), not with a `FibLevels` payload and not with a bad request. -/
theorem fib_empty_selection_errors :
    (∀ st en : Option Nat, getFib [] st en = Except.error internalErrorStatus) ∧
    (∀ (store : List Candle) (s e : Nat),
      store.filter (fun c => decide (s ≤ c.ts) && decide (c.ts ≤ e)) = [] →
      getFib store (some s) (some e) = Except.error internalErrorStatus) := by
  refine ⟨?_, ?_⟩
  · intro st en
    cases st <;> cases en <;> rfl
  · intro store s e h
    have hsel : fibSelect store (some s) (some e) =
        store.filter (fun c => decide (s ≤ c.ts) && decide (c.ts ≤ e)) := rfl
    rw [getFib, hsel, h]
    rfl

/-- C10 (witness: a two-bound query whose range `[5, 6]` misses the
only stored candle, which has timestamp 0). -/
theorem fib_empty_selection_errors_witness :
    List.filter (fun c => decide (5 ≤ c.ts) && decide (c.ts ≤ 6)) [demoCandle] = [] ∧
      getFib [demoCandle] (some 5) (some 6) = Except.error internalErrorStatus :=
  ⟨by decide, fib_empty_selection_errors.2 [demoCandle] 5 6 (by decide)⟩

end Graph

namespace Graph

/-!
NaN-aware layer for the data-integrity claim.  The `close` column is a
DuckDB `DOUBLE` and may hold `NaN`; `RVal` embeds such a value as
either `NaN` or an exact rational.  The SQL of `get_indicators` is
re-traced over `RVal` with DuckDB's documented floating-point
semantics: arithmetic involving `NaN` yields `NaN`, while DuckDB's
comparison operators order `NaN` greater than every other value (so
`NaN > 0` is true, `NaN < 0` is false, `NaN = 0` is false).
-/

/-- A DuckDB `DOUBLE`: `NaN` or a (rational-embedded) number. -/
inductive RVal where
  | nan : RVal
  | num : ℚ → RVal
  deriving DecidableEq, Repr

/-- NaN-propagating addition. -/
def rvAdd : RVal → RVal → RVal
  | RVal.num a, RVal.num b => RVal.num (a + b)
  | _, _ => RVal.nan

/-- NaN-propagating subtraction. -/
def rvSub : RVal → RVal → RVal
  | RVal.num a, RVal.num b => RVal.num (a - b)
  | _, _ => RVal.nan

/-- NaN-propagating multiplication. -/
def rvMul : RVal → RVal → RVal
  | RVal.num a, RVal.num b => RVal.num (a * b)
  | _, _ => RVal.nan

/-- NaN-propagating division (division by zero, unreachable on the
guarded paths of the query, is mapped to `NaN`). -/
def rvDiv : RVal → RVal → RVal
  | RVal.num a, RVal.num b => if b = 0 then RVal.nan else RVal.num (a / b)
  | _, _ => RVal.nan

/-- DuckDB `<` on doubles: `NaN` is greater than every value. -/
def rvLt : RVal → RVal → Bool
  | RVal.num a, RVal.num b => decide (a < b)
  | RVal.num _, RVal.nan => true
  | RVal.nan, _ => false

/-- DuckDB `=` on doubles (`NaN = NaN` holds in DuckDB's total order;
`NaN` equals no number). -/
def rvEq : RVal → RVal → Bool
  | RVal.num a, RVal.num b => decide (a = b)
  | RVal.nan, RVal.nan => true
  | _, _ => false

/-- Sum of a list of `RVal`s (the SQL window `sum`/`avg` numerator). -/
def rvSum : List RVal → RVal
  | [] => RVal.num 0
  | v :: vs => rvAdd v (rvSum vs)

/-- The recursive EMA pass over `RVal` (same recurrence as `emaFrom`,
`src/main.rs` lines 168-172). -/
def emaFromN (e : RVal) : List RVal → List RVal
  | [] => []
  | c :: cs =>
    rvAdd (rvMul c (RVal.num alphaC)) (rvMul e (RVal.num betaC)) ::
      emaFromN (rvAdd (rvMul c (RVal.num alphaC)) (rvMul e (RVal.num betaC))) cs

/-- The full `ema` CTE over `RVal`. -/
def emaListN : List RVal → List RVal
  | [] => []
  | c :: cs => c :: emaFromN c cs

/-- EMA over `RVal` at row `i`. -/
def emaAtN (closes : List RVal) (i : Nat) : RVal :=
  (emaListN closes).getD i (RVal.num 0)

/-- `sma_14` over `RVal`. -/
def smaAtN (closes : List RVal) (i : Nat) : RVal :=
  rvDiv (rvSum ((winIdx i).map (fun j => closes.getD j (RVal.num 0))))
    (RVal.num (winLen i))

/-- `gain` over `RVal`: row 0 has a `NULL` delta, hence gain `0`; a
`NaN` delta compares greater than `0` in DuckDB, so it IS taken as the
gain. -/
def gainAtN (closes : List RVal) (j : Nat) : RVal :=
  if j = 0 then RVal.num 0
  else if rvLt (RVal.num 0)
      (rvSub (closes.getD j (RVal.num 0)) (closes.getD (j - 1) (RVal.num 0))) then
    rvSub (closes.getD j (RVal.num 0)) (closes.getD (j - 1) (RVal.num 0))
  else RVal.num 0

/-- `loss` over `RVal`: a `NaN` delta is not `< 0` in DuckDB, so the
loss is `0`. -/
def lossAtN (closes : List RVal) (j : Nat) : RVal :=
  if j = 0 then RVal.num 0
  else if rvLt (rvSub (closes.getD j (RVal.num 0)) (closes.getD (j - 1) (RVal.num 0)))
      (RVal.num 0) then
    rvSub (RVal.num 0)
      (rvSub (closes.getD j (RVal.num 0)) (closes.getD (j - 1) (RVal.num 0)))
  else RVal.num 0

/-- `avg_gain` over `RVal`. -/
def avgGainAtN (closes : List RVal) (i : Nat) : RVal :=
  rvDiv (rvSum ((winIdx i).map (gainAtN closes))) (RVal.num (winLen i))

/-- `avg_loss` over `RVal`. -/
def avgLossAtN (closes : List RVal) (i : Nat) : RVal :=
  rvDiv (rvSum ((winIdx i).map (lossAtN closes))) (RVal.num (winLen i))

/-- `rsi_14` over `RVal`. -/
def rsiAtN (closes : List RVal) (i : Nat) : Option RVal :=
  if rvEq (avgLossAtN closes i) (RVal.num 0) then none
  else
    some (rvSub (RVal.num 100)
      (rvDiv (RVal.num 100)
        (rvAdd (RVal.num 1) (rvDiv (avgGainAtN closes i) (avgLossAtN closes i)))))

/-- Output row over `RVal`. -/
structure IndicatorPointN where
  timestamp : Nat
  sma_14 : Option RVal
  ema_14 : Option RVal
  rsi_14 : Option RVal
  deriving DecidableEq, Repr

/-- Output row of the query over `RVal`. -/
def pointAtN (s : List (Nat × RVal)) (i : Nat) : IndicatorPointN :=
  { timestamp := (s.getD i (0, RVal.num 0)).1
  , sma_14 := some (smaAtN (s.map Prod.snd) i)
  , ema_14 := some (emaAtN (s.map Prod.snd) i)
  , rsi_14 := rsiAtN (s.map Prod.snd) i }

/-- The query output over `RVal`. -/
def computePointsN (s : List (Nat × RVal)) : List IndicatorPointN :=
  (List.range s.length).map (pointAtN s)

/-- The `get_indicators` handler over `RVal`: exactly as over `ℚ`, the
row loop has no value inspection and no failure path — `src/main.rs`
lines 210-221 only fail on store errors, never on the data. -/
def getIndicatorsN (s : List (Nat × RVal)) :
    Except Nat (List IndicatorPointN) :=
  Except.ok (computePointsN s)

/-- C7 (counterexample).  A series whose only close is `NaN` does NOT
fail the request: the handler answers `Ok` with a row whose `sma_14`
and `ema_14` are `NaN`. -/
theorem nan_close_not_failed :
    RVal.nan ∈ ([((0 : Nat), RVal.nan)].map Prod.snd) ∧
    getIndicatorsN [((0 : Nat), RVal.nan)] =
      Except.ok [⟨0, some RVal.nan, some RVal.nan, none⟩] := by
  refine ⟨by simp, ?_⟩
  have h : computePointsN [((0 : Nat), RVal.nan)] =
      [pointAtN [((0 : Nat), RVal.nan)] 0] := rfl
  rw [getIndicatorsN, h]
  have hsma : smaAtN [RVal.nan] 0 = RVal.nan := rfl
  have hema : emaAtN [RVal.nan] 0 = RVal.nan := rfl
  have hrsi : rsiAtN [RVal.nan] 0 = none := by
    have hw : winIdx 0 = [0] := rfl
    have hl : avgLossAtN [RVal.nan] 0 = RVal.num 0 := by
      rw [avgLossAtN, hw]
      norm_num [lossAtN, rvSum, rvAdd, rvDiv, winLen]
    rw [rsiAtN, hl]
    norm_num [rvEq]
  rw [show pointAtN [((0 : Nat), RVal.nan)] 0 =
    ⟨0, some (smaAtN [RVal.nan] 0), some (emaAtN [RVal.nan] 0),
      rsiAtN [RVal.nan] 0⟩ from rfl, hsma, hema, hrsi]

/-- C7 (amended).  `get_indicators` never fails on data: for every
series — NaN closes included — it answers `Ok` with one point per
candle, and a NaN close propagates into the output fields (on the
all-NaN one-candle series the emitted `ema_14` is `NaN`). -/
theorem nan_close_propagates :
    (∀ s : List (Nat × RVal),
      getIndicatorsN s = Except.ok (computePointsN s) ∧
      (computePointsN s).length = s.length) ∧
    ((computePointsN [((0 : Nat), RVal.nan)]).getD 0
      ⟨0, none, none, none⟩).ema_14 = some RVal.nan := by
  refine ⟨fun s => ⟨rfl, by simp [computePointsN]⟩, rfl⟩

end Graph
